import Mathlib

/-!
Shallow embedding of the BusTub storage/concurrency substrate
(`src/storage/page/hash_table_bucket_page.cpp` — which also carries
`hash_table_directory_page.cpp` and `extendible_hash_table.cpp`,
`src/buffer/buffer_pool_manager_instance.cpp`, `src/buffer/lru_replacer.cpp`,
`src/concurrency/lock_manager.cpp`), together with theorems settling the
frozen claims about the natural-language specification.

Machine integers: `page_id_t` (signed 32-bit) is modelled as `ℤ` with the
sentinel `INVALID_PAGE_ID = -1`; indices, depths and transaction ids are `ℕ`.
No arithmetic in the verified fragment approaches the 32-bit boundary
(`next_page_id_` grows by `num_instances` per allocation; depths stay ≤ 9),
so no explicit wrap-around is modelled.
-/

namespace Bustub

/-! ### Hash table bucket page (`HashTableBucketPage`, hash_table_bucket_page.cpp)

The C++ class is a template over key/value types with a `BUCKET_ARRAY_SIZE`
capacity derived from the page size, and two bitmaps `occupied_`/`readable_`.
The embedding keeps the capacity `n` and the key/value types as parameters,
exactly like the template.  The bitmaps are modelled as `ℕ → Bool` maps; the
C++ bit arithmetic (`arr[i/8] >> (i%8) & 1`, set/clear via masks) implements
precisely reading and writing the `i`-th boolean.  The comparator of every
instantiation compares keys for equality, so `cmp(a,b) == 0` is `a = b`. -/

structure Bucket (K V : Type) where
  arr : ℕ → K × V
  occupied : ℕ → Bool
  readable : ℕ → Bool

variable {K V : Type} [DecidableEq K] [DecidableEq V]

/-- A zeroed bucket page, as produced by `Page::ResetMemory` when a new page
is handed out by the buffer pool: both bitmaps cleared. -/
def Bucket.empty [Inhabited K] [Inhabited V] : Bucket K V :=
  { arr := fun _ => default, occupied := fun _ => false, readable := fun _ => false }

/-- Loop body of `HashTableBucketPage::GetValue` (lines 24-32): scan slots
from `i` with `fuel` slots left; break at the first non-occupied slot;
collect values of readable slots whose key matches. -/
def Bucket.getValueGo (b : Bucket K V) (key : K) : ℕ → ℕ → List V
  | _, 0 => []
  | i, fuel + 1 =>
    if b.occupied i then
      (if b.readable i ∧ (b.arr i).1 = key then [(b.arr i).2] else []) ++
        b.getValueGo key (i + 1) fuel
    else []

/-- Embeds `HashTableBucketPage::GetValue`: the list of values appended to the
result vector (the C++ function additionally returns `!result.empty()`). -/
def Bucket.getValue (n : ℕ) (b : Bucket K V) (key : K) : List V :=
  b.getValueGo key 0 n

/-- Loop body of `HashTableBucketPage::Insert` (lines 39-50): reject a
readable duplicate of `(key, v)`; otherwise place the pair at the first
non-occupied slot and mark it occupied and readable. -/
def Bucket.insertGo (b : Bucket K V) (key : K) (v : V) : ℕ → ℕ → Bucket K V × Bool
  | _, 0 => (b, false)
  | i, fuel + 1 =>
    if b.occupied i ∧ b.readable i ∧ (b.arr i).1 = key ∧ (b.arr i).2 = v then
      (b, false)
    else if ¬ b.occupied i then
      ({ arr := Function.update b.arr i (key, v),
         occupied := Function.update b.occupied i true,
         readable := Function.update b.readable i true }, true)
    else b.insertGo key v (i + 1) fuel

/-- Embeds `HashTableBucketPage::Insert`: returns the updated bucket and the
success flag (`false` when full or duplicate). -/
def Bucket.insert (n : ℕ) (b : Bucket K V) (key : K) (v : V) : Bucket K V × Bool :=
  b.insertGo key v 0 n

/-- Loop body of `HashTableBucketPage::Remove` (lines 56-64): clear the
`readable` bit of the first occupied+readable slot holding `(key, v)`
(a tombstone: `occupied` stays set). -/
def Bucket.removeGo (b : Bucket K V) (key : K) (v : V) : ℕ → ℕ → Bucket K V × Bool
  | _, 0 => (b, false)
  | i, fuel + 1 =>
    if b.occupied i ∧ b.readable i ∧ (b.arr i).1 = key ∧ (b.arr i).2 = v then
      ({ b with readable := Function.update b.readable i false }, true)
    else b.removeGo key v (i + 1) fuel

/-- Embeds `HashTableBucketPage::Remove`. -/
def Bucket.remove (n : ℕ) (b : Bucket K V) (key : K) (v : V) : Bucket K V × Bool :=
  b.removeGo key v 0 n

/-- Loop body of `HashTableBucketPage::EmptyAll` (lines 87-101): drain every
readable entry in slot order and clear both bitmaps.  The C++ function
asserts `IsOccupied` on every slot (it is only ever called on a full
bucket, from `SplitInsert`); the assertion has no effect on the state. -/
def Bucket.emptyAllGo (b : Bucket K V) : ℕ → ℕ → List (K × V) × Bucket K V
  | _, 0 => ([], b)
  | i, fuel + 1 =>
    let collected := if b.readable i then [b.arr i] else []
    let b' : Bucket K V :=
      { b with readable := Function.update b.readable i false,
               occupied := Function.update b.occupied i false }
    let rest := b'.emptyAllGo (i + 1) fuel
    (collected ++ rest.1, rest.2)

/-- Embeds `HashTableBucketPage::EmptyAll`. -/
def Bucket.emptyAll (n : ℕ) (b : Bucket K V) : List (K × V) × Bucket K V :=
  b.emptyAllGo 0 n

/-- Embeds `HashTableBucketPage::IsFull` (lines 125-132): every slot occupied. -/
def Bucket.isFull (n : ℕ) (b : Bucket K V) : Bool :=
  (List.range n).all fun i => b.occupied i

/-- Embeds `HashTableBucketPage::NumReadable` (lines 135-143). -/
def Bucket.numReadable (n : ℕ) (b : Bucket K V) : ℕ :=
  ((List.range n).filter fun i => b.readable i).length

/-- Embeds `HashTableBucketPage::IsEmpty` (lines 146-148). -/
def Bucket.isEmpty (n : ℕ) (b : Bucket K V) : Bool :=
  b.numReadable n == 0

/-! ### Hash table directory page (`HashTableDirectoryPage`)

`DIRECTORY_ARRAY_SIZE = 512`; `bucket_page_ids_` and `local_depths_` are
arrays of that size, modelled as total maps (the C++ code never reads an
index ≥ 512 of either array; the directory page's own `page_id_`/`lsn_`
header fields are bookkeeping not touched by any claim). -/

def DIRECTORY_ARRAY_SIZE : ℕ := 512

def INVALID_PAGE_ID : ℤ := -1

structure Directory where
  globalDepth : ℕ
  localDepths : ℕ → ℕ
  bucketPageIds : ℕ → ℤ

/-- The shift-and-add loop in `GetGlobalDepthMask` (lines 222-227) and
`GetLocalHighBit` (lines 334-339): `d` iterations of `mask = (mask << 1) + 1`,
i.e. the low-`d`-bits mask `2^d - 1`. -/
def lowBitsMask : ℕ → ℕ
  | 0 => 0
  | d + 1 => 2 * lowBitsMask d + 1

/-- Embeds `HashTableDirectoryPage::GetGlobalDepthMask`. -/
def Directory.getGlobalDepthMask (dir : Directory) : ℕ :=
  lowBitsMask dir.globalDepth

/-- Embeds `HashTableDirectoryPage::GetLocalHighBit` (despite the name, the value
is the low-bits mask of the slot's local depth). -/
def Directory.getLocalHighBit (dir : Directory) (i : ℕ) : ℕ :=
  lowBitsMask (dir.localDepths i)

/-- Embeds `HashTableDirectoryPage::InitDirectory` (lines 212-219): every slot's
bucket page id becomes `INVALID_PAGE_ID` and local depth 0 (the
`page_id_`/`lsn_` header writes are not modelled).  The source loop writes
each slot `i < DIRECTORY_ARRAY_SIZE` exactly once with these constants;
the definition is that loop's pointwise result. -/
def Directory.initDirectory (dir : Directory) : Directory :=
  { dir with
    bucketPageIds := fun i =>
      if i < DIRECTORY_ARRAY_SIZE then INVALID_PAGE_ID else dir.bucketPageIds i,
    localDepths := fun i => if i < DIRECTORY_ARRAY_SIZE then 0 else dir.localDepths i }

/-- Embeds `HashTableDirectoryPage::SetBucketPageId`. -/
def Directory.setBucketPageId (dir : Directory) (i : ℕ) (pid : ℤ) : Directory :=
  { dir with bucketPageIds := Function.update dir.bucketPageIds i pid }

/-- Embeds `HashTableDirectoryPage::SetLocalDepth`. -/
def Directory.setLocalDepth (dir : Directory) (i : ℕ) (d : ℕ) : Directory :=
  { dir with localDepths := Function.update dir.localDepths i d }

/-- One iteration of the copy loop in `IncrGlobalDepth` (lines 240-243):
slot `idx | (1 << g)` receives slot `idx`'s bucket page id and local depth. -/
def incrCopyStep (g : ℕ) (d : Directory) (idx : ℕ) : Directory :=
  { d with
    bucketPageIds := Function.update d.bucketPageIds (idx ||| 2 ^ g) (d.bucketPageIds idx),
    localDepths := Function.update d.localDepths (idx ||| 2 ^ g) (d.localDepths idx) }

/-- Embeds `HashTableDirectoryPage::IncrGlobalDepth` (lines 230-246): when the
global depth is 0 it is merely incremented (no slots are copied); otherwise
each slot `idx < 2^g` is copied into `idx | (1 << g)` and the depth is
incremented. -/
def Directory.incrGlobalDepth (dir : Directory) : Directory :=
  if dir.globalDepth = 0 then { dir with globalDepth := 1 }
  else
    { (List.range (2 ^ dir.globalDepth)).foldl (incrCopyStep dir.globalDepth) dir with
      globalDepth := dir.globalDepth + 1 }

/-- Embeds `HashTableDirectoryPage::IncrLocalDepth` (lines 297-310): if the slot's
local depth is below the global depth, increment the local depth of every
slot pointing at the same bucket page; otherwise increment this slot's
local depth and then grow the directory. -/
def Directory.incrLocalDepth (dir : Directory) (i : ℕ) : Directory :=
  if dir.localDepths i < dir.globalDepth then
    let pid := dir.bucketPageIds i
    { dir with
      localDepths :=
        (List.range DIRECTORY_ARRAY_SIZE).foldl
          (fun ld j => if dir.bucketPageIds j = pid then Function.update ld j (ld j + 1) else ld)
          dir.localDepths }
  else
    (dir.setLocalDepth i (dir.localDepths i + 1)).incrGlobalDepth

/-- Embeds `HashTableDirectoryPage::CheckAndUpdateDirectory` (lines 312-321): make
every slot whose low `local_depth` bits equal this slot's canonical index
point at this slot's bucket page. -/
def Directory.checkAndUpdateDirectory (dir : Directory) (i : ℕ) : Directory :=
  let localMask := dir.getLocalHighBit i
  let localIdx := i &&& localMask
  let pid := dir.bucketPageIds i
  { dir with
    bucketPageIds :=
      (List.range DIRECTORY_ARRAY_SIZE).foldl
        (fun pids j => if j &&& localMask = localIdx then Function.update pids j pid else pids)
        dir.bucketPageIds }

/-! ### Extendible hash table (`ExtendibleHashTable`, extendible_hash_table.cpp)

The C++ class is a template over key/value/comparator and receives its hash
function in the constructor; the embedding keeps `hash : K → ℕ` (the 32-bit
MurmurHash downcast of the instantiations) and the bucket capacity `n` as
parameters, exactly like the template.

The buffer pool is abstracted to its functional content, a page store
`ℤ → Bucket K V` plus the allocation counter: `FetchPage pid` returns the
page `store pid`, `NewPage` hands out the next page id with a zeroed page,
and `UnpinPage` has no functional effect.  This is exact for the pool's
observable page contents — an eviction writes the dirty page to disk and a
later fetch re-reads the same bytes — and every call in the traces below
succeeds (the pool is large enough).  The directory page is held in a
separate field (its page id, allocated first, is never read back through
the store).  Per-page latches and the table latch serialize the code; the
embedding is of the serialized (single-threaded) executions. -/

structure HT (K V : Type) where
  dir : Directory
  store : ℤ → Bucket K V
  nextPageId : ℤ

variable [Inhabited K] [Inhabited V]

/-- The constructor `ExtendibleHashTable::ExtendibleHashTable`
(lines 428-451): allocate the directory page (id 0) and one bucket page
(id 1), initialize the directory, point slots 0 and 1 at the bucket page,
`IncrGlobalDepth` (0 → 1), and set both local depths to 0. -/
def HT.mkTable : HT K V :=
  let dir0 : Directory :=
    { globalDepth := 0, localDepths := fun _ => 0, bucketPageIds := fun _ => 0 }
  let dir1 := dir0.initDirectory
  let dir2 := (dir1.setBucketPageId 0 1).setBucketPageId 1 1
  let dir3 := dir2.incrGlobalDepth
  let dir4 := (dir3.setLocalDepth 0 0).setLocalDepth 1 0
  { dir := dir4, store := fun _ => Bucket.empty, nextPageId := 2 }

variable (hash : K → ℕ) (n : ℕ)

/-- Embeds `ExtendibleHashTable::KeyToDirectoryIndex` (lines 469-473). -/
def HT.keyToDirectoryIndex (ht : HT K V) (key : K) : ℕ :=
  hash key &&& ht.dir.getGlobalDepthMask

/-- Embeds `ExtendibleHashTable::KeyToPageId` (lines 476-479). -/
def HT.keyToPageId (ht : HT K V) (key : K) : ℤ :=
  ht.dir.bucketPageIds (ht.keyToDirectoryIndex hash key)

/-- Embeds `ExtendibleHashTable::GetValue` (lines 502-516): the values collected
from the bucket page addressed by the key (the C++ function returns
`!result.empty()` and the out-vector; this is the vector). -/
def HT.getValues (ht : HT K V) (key : K) : List V :=
  (ht.store (ht.keyToPageId hash key)).getValue n key

/-- One iteration of the re-hash loop in `SplitInsert` (lines 605-616):
re-route each drained pair to the new page when its local canonical index
moved, else back into the old page.  The result of the bucket-level
`Insert` is discarded in both branches, exactly as in the source. -/
def HT.splitStep (oldPid newPid : ℤ) (localIdx : ℕ)
    (st : Directory × (ℤ → Bucket K V) × ℕ) (kv : K × V) :
    Directory × (ℤ → Bucket K V) × ℕ :=
  let d := st.1
  let s := st.2.1
  let bidx := hash kv.1 &&& d.getGlobalDepthMask
  let ulbi := bidx &&& d.getLocalHighBit bidx
  if ulbi ≠ localIdx then
    (d.setBucketPageId bidx newPid,
     Function.update s newPid ((s newPid).insert n kv.1 kv.2).1, bidx)
  else
    (d, Function.update s oldPid ((s oldPid).insert n kv.1 kv.2).1, st.2.2)

/-- Embeds `ExtendibleHashTable::SplitInsert` (lines 556-624): bail out if the
directory index is out of range; compute the old bucket's local canonical
index; `IncrLocalDepth` (possibly growing the directory); allocate a new
zeroed bucket page; drain the old bucket, append the pending pair, and
re-route every pair; finally `CheckAndUpdateDirectory` on the recorded new
bucket index (initialized to 0).  Returns `true` unconditionally on the
split path. -/
def HT.splitInsert (ht : HT K V) (key : K) (v : V) : Bool × HT K V :=
  let oldPid := ht.keyToPageId hash key
  let oldIdx := ht.keyToDirectoryIndex hash key
  if DIRECTORY_ARRAY_SIZE ≤ oldIdx then (false, ht)
  else
    let localIdx :=
      if ht.dir.localDepths oldIdx < ht.dir.globalDepth then
        oldIdx &&& ht.dir.getLocalHighBit oldIdx
      else oldIdx
    let dir1 := ht.dir.incrLocalDepth oldIdx
    let newPid := ht.nextPageId
    let drained := (ht.store oldPid).emptyAll n
    let store1 := Function.update ht.store oldPid drained.2
    let store2 := Function.update store1 newPid Bucket.empty
    let pairsAll := drained.1 ++ [(key, v)]
    let folded := pairsAll.foldl (HT.splitStep hash n oldPid newPid localIdx) (dir1, store2, 0)
    let dir2 := folded.1.checkAndUpdateDirectory folded.2.2
    (true, { dir := dir2, store := folded.2.1, nextPageId := ht.nextPageId + 1 })

/-- Embeds `ExtendibleHashTable::Insert` (lines 522-553): try the bucket-level
insert; on failure, split if the bucket is full, else report the duplicate
with `false`. -/
def HT.insert (ht : HT K V) (key : K) (v : V) : Bool × HT K V :=
  let pid := ht.keyToPageId hash key
  let attempt := (ht.store pid).insert n key v
  if attempt.2 then (true, { ht with store := Function.update ht.store pid attempt.1 })
  else if (ht.store pid).isFull n then ht.splitInsert hash n key v
  else (false, ht)

/-! ### Concrete hash-table traces

The instantiation used for the concrete evaluations: keys and values `ℕ`,
bucket capacity 1, and the constant hash function `fun _ => 0` (the C++
template takes an arbitrary `HashFunction`; a constant models keys whose
32-bit hashes collide, which exist for MurmurHash at every production
capacity by pigeonhole). -/

def zeroHash : ℕ → ℕ := fun _ => 0

def c1T0 : HT ℕ ℕ := HT.mkTable

def c1T1 : HT ℕ ℕ := (c1T0.insert zeroHash 1 0 10).2

def c1T2 : HT ℕ ℕ := (c1T1.insert zeroHash 1 1 20).2

def c5T2 : HT ℕ ℕ := (c1T1.insert zeroHash 1 0 10).2

/-! ### LRU replacer (`LRUReplacer`, lru_replacer.cpp)

The intrusive doubly-linked list (head = MRU, tail = LRU) plus the
`frame_id → node` map is modelled as the list of member frame ids in
recency order, MRU first.  `Unpin` prepends a new head node (lines
103-110) when the frame is absent; `Victim` removes the tail node (lines
35-46); `Pin` unlinks the frame's node wherever it is (lines 60-89). -/

/-- Embeds `LRUReplacer::Victim`: `none` if empty, else the LRU member (list
tail) removed. -/
def replVictim (l : List ℕ) : Option (ℕ × List ℕ) :=
  match l.getLast? with
  | none => none
  | some f => some (f, l.dropLast)

/-- Embeds `LRUReplacer::Pin`: remove the frame; no-op if absent. -/
def replPin (l : List ℕ) (f : ℕ) : List ℕ :=
  l.erase f

/-- Embeds `LRUReplacer::Unpin`: insert as MRU; no-op if already present. -/
def replUnpin (l : List ℕ) (f : ℕ) : List ℕ :=
  if f ∈ l then l else f :: l

/-! ### Buffer pool manager instance (`BufferPoolManagerInstance`,
buffer_pool_manager_instance.cpp — src/unnamed/part_001)

`Page` metadata as in page.h (the payload bytes are abstracted to one `ℕ`,
with 0 the zeroed page).  The `DiskManager` collaborator is modelled by the
`disk` map (`WritePage`/`ReadPage`) together with the `deallocated` list
for its allocation state.  The page table (`std::unordered_map`) is an
association list. -/

structure BPPage where
  pageId : ℤ
  pinCount : ℕ
  isDirty : Bool
  data : ℕ
deriving DecidableEq

structure BPM where
  poolSize : ℕ
  numInstances : ℤ
  instanceIndex : ℤ
  nextPageId : ℤ
  pages : ℕ → BPPage
  pageTable : List (ℤ × ℕ)
  freeList : List ℕ
  replacer : List ℕ
  disk : ℤ → ℕ
  deallocated : List ℤ

/-- Lookup `page_table_.find(page_id)`. -/
def ptLookup (pt : List (ℤ × ℕ)) (pid : ℤ) : Option ℕ :=
  (pt.find? fun e => e.1 = pid).map (·.2)

/-- Embeds `page_table_.erase(page_id)` (keys are unique, so dropping every
matching entry is the map erase). -/
def ptErase (pt : List (ℤ × ℕ)) (pid : ℤ) : List (ℤ × ℕ) :=
  pt.filter fun e => ¬ e.1 = pid

/-- Embeds `page_table_[page_id] = frame_id`. -/
def ptInsert (pt : List (ℤ × ℕ)) (pid : ℤ) (fid : ℕ) : List (ℤ × ℕ) :=
  (pid, fid) :: ptErase pt pid

/-- Embeds `BufferPoolManagerInstance::FlushPgImp` (lines 50-64): if buffered,
write the frame's bytes to disk when dirty and return `true`; nothing else
changes.  Returns `false` when not buffered. -/
def BPM.flushPg (s : BPM) (pid : ℤ) : Bool × BPM :=
  match ptLookup s.pageTable pid with
  | some fid =>
    if (s.pages fid).isDirty then
      (true, { s with disk := Function.update s.disk pid (s.pages fid).data })
    else (true, s)
  | none => (false, s)

/-- Embeds `BufferPoolManagerInstance::AllocatePage` (lines 221-226): hand out
`next_page_id_` and advance it by `num_instances_` (the `ValidatePageId`
assertion `page_id % num_instances == instance_index` holds by
construction on every reachable state). -/
def BPM.allocatePage (s : BPM) : ℤ × BPM :=
  (s.nextPageId, { s with nextPageId := s.nextPageId + s.numInstances })

/-- Steps 2-3 of `NewPgImp` (lines 100-113) applied to the chosen victim
frame: erase its old page-table entry, write it back if dirty, zero the
memory and set the new metadata, insert the new page-table entry, and read
the new page id's bytes from disk (the read overwrites the zeroed data;
`ResetMemory`'s zeroes are visible only until that read). -/
def BPM.newPgFinish (s : BPM) (fid : ℕ) (pid : ℤ) : BPM :=
  let p := s.pages fid
  let s1 := { s with pageTable := ptErase s.pageTable p.pageId }
  let s2 := if p.isDirty then { s1 with disk := Function.update s1.disk p.pageId p.data } else s1
  let pNew : BPPage := { pageId := pid, pinCount := 1, isDirty := false, data := s2.disk pid }
  { s2 with pages := Function.update s2.pages fid pNew,
            pageTable := ptInsert s2.pageTable pid fid }

/-- Embeds `BufferPoolManagerInstance::NewPgImp` (lines 73-116): return `none`
(nullptr) when every frame is pinned, before allocating an id; otherwise
allocate, take a victim from the free list first and else from the
replacer, and finish.  The `.error` case is the source's
`assert(replacer_->Victim(...))` failing (free list and replacer both
empty although an unpinned frame exists) — unreachable under the pool's
invariant. -/
def BPM.newPg (s : BPM) : Except Unit (Option ℤ × BPM) :=
  if (List.range s.poolSize).all (fun i => (s.pages i).pinCount ≠ 0) then .ok (none, s)
  else
    let a := s.allocatePage
    match a.2.freeList with
    | f :: rest => .ok (some a.1, BPM.newPgFinish { a.2 with freeList := rest } f a.1)
    | [] =>
      match replVictim a.2.replacer with
      | none => .error ()
      | some (f, r) => .ok (some a.1, BPM.newPgFinish { a.2 with replacer := r } f a.1)

/-- Embeds `BufferPoolManagerInstance::UnpinPgImp` (lines 198-219): `false` if not
buffered or pin count already 0; else decrement the pin count,
OR-accumulate the dirty flag (`if (!is_dirty_) is_dirty_ = is_dirty`), and
hand the frame to the replacer exactly when the count reaches 0. -/
def BPM.unpinPg (s : BPM) (pid : ℤ) (d : Bool) : Bool × BPM :=
  match ptLookup s.pageTable pid with
  | none => (false, s)
  | some fid =>
    let p := s.pages fid
    if p.pinCount = 0 then (false, s)
    else
      let p1 := { p with pinCount := p.pinCount - 1, isDirty := p.isDirty || d }
      let s1 := { s with pages := Function.update s.pages fid p1 }
      if p.pinCount - 1 = 0 then (true, { s1 with replacer := replUnpin s1.replacer fid })
      else (true, s1)

/-- Modelled from the spec: `DiskManager::deallocate_page` — its body is
not under src/ (only the call in `DeletePgImp` is); §6 of the spec lists it
as the disk manager's allocation-state operation, so it is modelled as
recording the id in the disk manager's deallocation state. -/
def BPM.deallocatePage (s : BPM) (pid : ℤ) : BPM :=
  { s with deallocated := pid :: s.deallocated }

/-- Embeds `BufferPoolManagerInstance::DeletePgImp` (lines 166-196): calls
`DeallocatePage` first, unconditionally (step "0." of the source's
comments); then `true` if not buffered; `false` if pinned; else erase the
page-table entry, reset the frame's metadata, push the frame on the free
list and remove it from the replacer. -/
def BPM.deletePg (s : BPM) (pid : ℤ) : Bool × BPM :=
  let s0 := s.deallocatePage pid
  match ptLookup s0.pageTable pid with
  | none => (true, s0)
  | some fid =>
    if 0 < (s0.pages fid).pinCount then (false, s0)
    else
      let pReset : BPPage := { pageId := INVALID_PAGE_ID, pinCount := 0, isDirty := false, data := 0 }
      (true, { s0 with pageTable := ptErase s0.pageTable pid,
                       pages := Function.update s0.pages fid pReset,
                       freeList := s0.freeList ++ [fid],
                       replacer := replPin s0.replacer fid })

/-! ### Buffer-pool invariant and concrete states -/

/-- Well-formedness of a buffer-pool state, as maintained by the pool on
every reachable state: an unpinned frame is available through the free
list or the replacer; free-list and replacer members are frames of the
pool; buffered ids were allocated; the disk holds zeroes at ids not yet
allocated. -/
def bpmInv (s : BPM) : Prop :=
  (∀ i < s.poolSize, (s.pages i).pinCount = 0 → i ∈ s.freeList ∨ i ∈ s.replacer) ∧
  (∀ f ∈ s.freeList, f < s.poolSize) ∧
  (∀ f ∈ s.replacer, f < s.poolSize) ∧
  (∀ i < s.poolSize, (s.pages i).pageId < s.nextPageId) ∧
  (∀ q : ℤ, s.nextPageId ≤ q → s.disk q = 0)

/-- A fresh single-frame pool: frame 0 free, nothing buffered. -/
def bpmFresh : BPM :=
  { poolSize := 1, numInstances := 1, instanceIndex := 0, nextPageId := 0,
    pages := fun _ => { pageId := INVALID_PAGE_ID, pinCount := 0, isDirty := false, data := 0 },
    pageTable := [], freeList := [0], replacer := [], disk := fun _ => 0, deallocated := [] }

/-- A single-frame pool holding page 5 in frame 0, pinned once and dirty. -/
def bpmBusy : BPM :=
  { poolSize := 1, numInstances := 1, instanceIndex := 0, nextPageId := 6,
    pages := fun _ => { pageId := 5, pinCount := 1, isDirty := true, data := 42 },
    pageTable := [(5, 0)], freeList := [], replacer := [], disk := fun _ => 0, deallocated := [] }

/-- A single-frame pool holding page 7 in frame 0, unpinned and clean (so
the frame sits in the replacer). -/
def bpmIdle : BPM :=
  { poolSize := 1, numInstances := 1, instanceIndex := 0, nextPageId := 8,
    pages := fun _ => { pageId := 7, pinCount := 0, isDirty := false, data := 3 },
    pageTable := [(7, 0)], freeList := [], replacer := [0], disk := fun _ => 0, deallocated := [] }

/-! ### Lock manager (`LockManager`, lock_manager.cpp)

Row identifiers and transaction ids are `ℕ`.  `lock_table_` is a total map
`RID → queue` (`operator[]` default-constructs an empty queue; `Unlock`'s
erase restores the default).  All transactions live in the `txns` map —
the C++ `txn_map_` holds pointers into it; wounding mutates a victim
through that map.  `sleeping_map_` is `sleeping`.  The condition-variable
wait suspends the caller; each operation is embedded as its non-blocking
run up to the grant, the failure return, or the first wait (`.blocked`),
and one loop resumption is its own step function, so an execution
interleaved with wounds is a sequence of these steps. -/

inductive TxnState
  | growing
  | shrinking
  | committed
  | aborted
deriving DecidableEq

inductive IsoLevel
  | readUncommitted
  | readCommitted
  | repeatableRead
deriving DecidableEq

inductive LockMode
  | shared
  | exclusive
deriving DecidableEq

/-- The abort reasons the lock manager throws (`AbortReason` in the
transaction header; `DEADLOCK` is commented out in the source). -/
inductive AbortReason
  | lockOnShrinking
  | locksharedOnReadUncommitted
  | upgradeConflict
deriving DecidableEq

structure LockRequest where
  txnId : ℕ
  mode : LockMode
  granted : Bool
deriving DecidableEq

/-- Modelled from the spec: the `LockRequest` constructor lives in
lock_manager.h (not under src/); a request is created un-granted
(§4.4: a request is "mark[ed] granted" only when the lock is handed
over). -/
def mkRequest (t : ℕ) (m : LockMode) : LockRequest :=
  { txnId := t, mode := m, granted := false }

structure LRQueue where
  requests : List LockRequest
  upgrading : Option ℕ
deriving DecidableEq

def emptyQueue : LRQueue :=
  { requests := [], upgrading := none }

structure Txn where
  iso : IsoLevel
  state : TxnState
  sharedSet : List ℕ
  exclusiveSet : List ℕ
deriving DecidableEq

structure LMState where
  txns : ℕ → Txn
  lockTable : ℕ → LRQueue
  sleeping : ℕ → Option ℕ

/-- Embeds `txn->SetState(st)` through the transaction map. -/
def LMState.setTxnState (s : LMState) (t : ℕ) (st : TxnState) : LMState :=
  { s with txns := Function.update s.txns t { s.txns t with state := st } }

/-- Abort every wounded victim (`aborted_txn->SetState(ABORTED)`; the
`notify_all` on the victim's sleeping queue moves its thread, which is
represented by running that victim's loop step explicitly). -/
def LMState.woundAll (s : LMState) (ids : List ℕ) : LMState :=
  ids.foldl (fun acc i => acc.setTxnState i .aborted) s

/-- Embeds `LockManager::LockHolded` (lines 20-28). -/
def LMState.lockHolded (s : LMState) (t rid : ℕ) : Bool :=
  (s.lockTable rid).requests.any fun r => r.txnId = t

/-- The scan of `LockShared`'s wait loop (lines 74-91): walks the queue up
to (not including) this txn's request; returns the ids of younger
exclusive holders to wound and whether any exclusive request precedes. -/
def sharedScan (t : ℕ) : List LockRequest → List ℕ × Bool
  | [] => ([], false)
  | r :: rest =>
    if r.txnId = t then ([], false)
    else
      let w := sharedScan t rest
      if r.mode = .exclusive then ((if t < r.txnId then [r.txnId] else []) ++ w.1, true)
      else w

/-- The scan of `LockExclusive`'s wait loop (lines 150-163): every
preceding request blocks, and younger predecessors of any mode are
wounded. -/
def exclScan (t : ℕ) : List LockRequest → List ℕ × Bool
  | [] => ([], false)
  | r :: rest =>
    if r.txnId = t then ([], false)
    else
      let w := exclScan t rest
      ((if t < r.txnId then [r.txnId] else []) ++ w.1, true)

/-- The scan of `LockUpgrade`'s wait loop (lines 246-262): stop at this
txn's exclusive request, skip its own other (shared) request, wound
younger predecessors of any mode; any foreign predecessor blocks. -/
def upgScan (t : ℕ) : List LockRequest → List ℕ × Bool
  | [] => ([], false)
  | r :: rest =>
    if r.txnId = t ∧ r.mode = .exclusive then ([], false)
    else if r.txnId = t then upgScan t rest
    else
      let w := upgScan t rest
      ((if t < r.txnId then [r.txnId] else []) ++ w.1, true)

inductive LockOutcome
  | thrown (r : AbortReason)
  | ret (b : Bool)
  | blocked
deriving DecidableEq

/-- One iteration of `LockShared`'s wait loop (lines 63-102) together with
the post-loop grant (lines 104-107).  If the txn was aborted (wounded),
remove every request of this txn from the queue and return `false`.
Otherwise wound, and either sleep (`.blocked`) or grant.  The grant sets
`granted_ = true` on the source's local `request` variable — a by-value
copy (line 50/61), so the queue entry is NOT updated — and records the rid
in the txn's shared set. -/
def LMState.sharedLoopStep (s : LMState) (t rid : ℕ) : LockOutcome × LMState :=
  let q := s.lockTable rid
  if (s.txns t).state = .aborted then
    let q1 := { q with requests := q.requests.filter fun r => ¬ r.txnId = t }
    (.ret false, { s with lockTable := Function.update s.lockTable rid q1 })
  else
    let scan := sharedScan t q.requests
    let s1 := s.woundAll scan.1
    if scan.2 then
      (.blocked, { s1 with sleeping := Function.update s1.sleeping t (some rid) })
    else
      let s2 := { s1 with sleeping := Function.update s1.sleeping t none }
      let txn := s2.txns t
      (.ret true,
       { s2 with txns := Function.update s2.txns t { txn with sharedSet := rid :: txn.sharedSet } })

/-- Embeds `LockManager::LockShared` (lines 30-108) up to its first suspension:
the isolation and 2PL-phase checks, the idempotent re-grant, the enqueue,
and the first loop iteration. -/
def LMState.lockShared (s : LMState) (t rid : ℕ) : LockOutcome × LMState :=
  let txn := s.txns t
  if txn.iso = .readUncommitted then
    (.thrown .locksharedOnReadUncommitted, s.setTxnState t .aborted)
  else if txn.state = .shrinking then
    (.thrown .lockOnShrinking, s.setTxnState t .aborted)
  else if s.lockHolded t rid then (.ret true, s)
  else
    let q := s.lockTable rid
    let q1 := { q with requests := q.requests ++ [mkRequest t .shared] }
    LMState.sharedLoopStep { s with lockTable := Function.update s.lockTable rid q1 } t rid

/-- One iteration of `LockExclusive`'s wait loop (lines 138-174) plus the
post-loop grant (lines 176-179; again on a local copy of the request). -/
def LMState.exclLoopStep (s : LMState) (t rid : ℕ) : LockOutcome × LMState :=
  let q := s.lockTable rid
  if (s.txns t).state = .aborted then
    let q1 := { q with requests := q.requests.filter fun r => ¬ r.txnId = t }
    (.ret false, { s with lockTable := Function.update s.lockTable rid q1 })
  else
    let scan := exclScan t q.requests
    let s1 := s.woundAll scan.1
    if scan.2 then
      (.blocked, { s1 with sleeping := Function.update s1.sleeping t (some rid) })
    else
      let s2 := { s1 with sleeping := Function.update s1.sleeping t none }
      let txn := s2.txns t
      let txn1 : Txn := { txn with exclusiveSet := rid :: txn.exclusiveSet }
      (.ret true, { s2 with txns := Function.update s2.txns t txn1 })

/-- Embeds `LockManager::LockExclusive` (lines 110-180) up to its first
suspension. -/
def LMState.lockExclusive (s : LMState) (t rid : ℕ) : LockOutcome × LMState :=
  let txn := s.txns t
  if txn.state = .shrinking then
    (.thrown .lockOnShrinking, s.setTxnState t .aborted)
  else if s.lockHolded t rid then (.ret true, s)
  else
    let q := s.lockTable rid
    let q1 := { q with requests := q.requests ++ [mkRequest t .exclusive] }
    LMState.exclLoopStep { s with lockTable := Function.update s.lockTable rid q1 } t rid

/-- One iteration of `LockUpgrade`'s wait loop (lines 232-273) plus the
post-loop success path (lines 275-286).  On abort while waiting (lines
235-242): clear `upgrading_`, remove this txn's requests whose `granted_`
is false — note every queue entry's `granted_` is false, because the
grant flag is only ever set on local copies — and return `false`.  On
success: pop the queue front (asserted to be this txn's shared request),
clear `upgrading_`, mark the local copy of the new request granted, and
move the rid from the shared to the exclusive set. -/
def LMState.upgradeLoopStep (s : LMState) (t rid : ℕ) : LockOutcome × LMState :=
  let q := s.lockTable rid
  if (s.txns t).state = .aborted then
    let q1 : LRQueue :=
      { requests := q.requests.filter fun r => ¬ (r.txnId = t ∧ r.granted = false),
        upgrading := none }
    (.ret false, { s with lockTable := Function.update s.lockTable rid q1 })
  else
    let scan := upgScan t q.requests
    let s1 := s.woundAll scan.1
    if scan.2 then
      (.blocked, { s1 with sleeping := Function.update s1.sleeping t (some rid) })
    else
      let s2 := { s1 with sleeping := Function.update s1.sleeping t none }
      let q2 := s2.lockTable rid
      let q3 : LRQueue := { requests := q2.requests.drop 1, upgrading := none }
      let txn := s2.txns t
      (.ret true,
       { s2 with lockTable := Function.update s2.lockTable rid q3,
                 txns := Function.update s2.txns t
                   { txn with sharedSet := txn.sharedSet.erase rid,
                              exclusiveSet := rid :: txn.exclusiveSet } })

/-- Embeds `LockManager::LockUpgrade` (lines 182-287) up to its first suspension:
the 2PL-phase check, the pending-upgrade check, the search for this txn's
existing request (already-exclusive returns `true`; no shared request
returns `false`), the enqueue of the exclusive request with
`upgrading_ = txn`, and the first loop iteration. -/
def LMState.lockUpgrade (s : LMState) (t rid : ℕ) : LockOutcome × LMState :=
  let txn := s.txns t
  if txn.state = .shrinking then
    (.thrown .lockOnShrinking, s.setTxnState t .aborted)
  else
    let q := s.lockTable rid
    if q.upgrading ≠ none then
      (.thrown .upgradeConflict, s.setTxnState t .aborted)
    else
      match q.requests.find? (fun r => r.txnId = t) with
      | none => (.ret false, s)
      | some r =>
        if r.mode = .shared then
          let q1 : LRQueue :=
            { requests := q.requests ++ [mkRequest t .exclusive], upgrading := some t }
          LMState.upgradeLoopStep { s with lockTable := Function.update s.lockTable rid q1 } t rid
        else (.ret true, s)

/-- Embeds `LockManager::Unlock` (lines 289-327): erase this txn's first request
from the queue (`false` if absent), drop the rid from both lock sets,
transition GROWING → SHRINKING when the held lock was exclusive or the
isolation level is REPEATABLE_READ, and erase the queue from the table
when it became empty (restoring the default empty queue). -/
def LMState.unlock (s : LMState) (t rid : ℕ) : Bool × LMState :=
  let q := s.lockTable rid
  match q.requests.find? (fun r => r.txnId = t) with
  | none => (false, s)
  | some r =>
    let q1 := { q with requests := q.requests.eraseP fun x => x.txnId = t }
    let txn := s.txns t
    let txn1 : Txn :=
      { txn with
        sharedSet := txn.sharedSet.erase rid,
        exclusiveSet := txn.exclusiveSet.erase rid,
        state :=
          if (txn.iso = .repeatableRead ∨ r.mode = .exclusive) ∧ txn.state = .growing then
            .shrinking
          else txn.state }
    let q2 := if q1.requests.isEmpty then emptyQueue else q1
    (true, { s with lockTable := Function.update s.lockTable rid q2,
                    txns := Function.update s.txns t txn1 })

/-! ### Concrete lock-manager states and traces -/

/-- Two growing REPEATABLE_READ transactions (ids 1 and 2), no locks. -/
def lmS0 : LMState :=
  { txns := fun _ => { iso := .repeatableRead, state := .growing, sharedSet := [], exclusiveSet := [] },
    lockTable := fun _ => emptyQueue,
    sleeping := fun _ => none }

/-- A SHRINKING READ_UNCOMMITTED transaction (id 1), used to refute the
claim that every lock attempt in SHRINKING fails with LOCK_ON_SHRINKING. -/
def lmShrRU : LMState :=
  { txns := fun _ => { iso := .readUncommitted, state := .shrinking, sharedSet := [], exclusiveSet := [] },
    lockTable := fun _ => emptyQueue,
    sleeping := fun _ => none }

/-- Trace for the upgrade-abort claim: txn 1 takes S on rid 0, -/
def c8S1 : LMState := (lmS0.lockShared 1 0).2

/-- then txn 2 takes S on rid 0, -/
def c8S2 : LMState := (c8S1.lockShared 2 0).2

/-- then txn 1 starts an upgrade and blocks behind txn 2's shared request
(wounding txn 2 on the way), -/
def c8S3 : LMState := (c8S2.lockUpgrade 1 0).2

/-- then txn 1 is wounded by some older transaction while sleeping. -/
def c8S4 : LMState := c8S3.setTxnState 1 .aborted

/-- Two growing REPEATABLE_READ transactions with txn 1 SHRINKING: the
well-behaved side of the shrinking check. -/
def lmShrRR : LMState :=
  { txns := fun _ => { iso := .repeatableRead, state := .shrinking, sharedSet := [], exclusiveSet := [] },
    lockTable := fun _ => emptyQueue,
    sleeping := fun _ => none }

/-! ### Postcondition predicates for the buffer-pool and lock-manager claims -/

/-- Postcondition of `NewPgImp`: nullptr exactly when every frame is
pinned (and then the state, in particular `next_page_id_`, is untouched);
on success the returned id is the pre-state's `next_page_id_`, the counter
advanced by `num_instances_`, and the victim frame was flushed if dirty,
re-initialized (pin count 1, clean, zeroed bytes) and entered into the
page table under the new id. -/
def newPgPost (s : BPM) : Prop :=
  (BPM.newPg s = Except.ok (none, s) ↔ ∀ i < s.poolSize, (s.pages i).pinCount ≠ 0) ∧
  ∀ pid s2, BPM.newPg s = Except.ok (some pid, s2) →
    pid = s.nextPageId ∧ s2.nextPageId = s.nextPageId + s.numInstances ∧
    ∃ fid, fid < s.poolSize ∧
      ptLookup s2.pageTable pid = some fid ∧
      s2.pages fid = { pageId := pid, pinCount := 1, isDirty := false, data := 0 } ∧
      ((s.pages fid).isDirty = true → s2.disk (s.pages fid).pageId = (s.pages fid).data)

/-- Postcondition of `UnpinPgImp`: `false` and no change when the page is
not buffered or already unpinned; otherwise `true`, the pin count
decremented, the dirty flag OR-accumulated, the frame handed to the
replacer exactly when the count reached zero, and nothing else changed. -/
def unpinPost (s : BPM) (pid : ℤ) (d : Bool) : Prop :=
  (ptLookup s.pageTable pid = none → BPM.unpinPg s pid d = (false, s)) ∧
  (∀ fid, ptLookup s.pageTable pid = some fid → (s.pages fid).pinCount = 0 →
    BPM.unpinPg s pid d = (false, s)) ∧
  (∀ fid, ptLookup s.pageTable pid = some fid → 0 < (s.pages fid).pinCount →
    (BPM.unpinPg s pid d).1 = true ∧
    (BPM.unpinPg s pid d).2.pages fid =
      { s.pages fid with pinCount := (s.pages fid).pinCount - 1,
                         isDirty := (s.pages fid).isDirty || d } ∧
    (∀ j, j ≠ fid → (BPM.unpinPg s pid d).2.pages j = s.pages j) ∧
    (BPM.unpinPg s pid d).2.pageTable = s.pageTable ∧
    (BPM.unpinPg s pid d).2.freeList = s.freeList ∧
    (BPM.unpinPg s pid d).2.disk = s.disk ∧
    (BPM.unpinPg s pid d).2.nextPageId = s.nextPageId ∧
    (BPM.unpinPg s pid d).2.deallocated = s.deallocated ∧
    ((s.pages fid).pinCount - 1 = 0 →
      (BPM.unpinPg s pid d).2.replacer = replUnpin s.replacer fid) ∧
    ((s.pages fid).pinCount - 1 ≠ 0 → (BPM.unpinPg s pid d).2.replacer = s.replacer))

/-- Postcondition of `DeletePgImp` as amended: the disk id is deallocated
unconditionally at entry; apart from that, a non-buffered page yields
`true` with no other change, a pinned page yields `false` with no other
change, and otherwise the page is dropped from the page table, the frame
reset and returned to the free list (and removed from the replacer). -/
def delPost (s : BPM) (pid : ℤ) : Prop :=
  ((BPM.deletePg s pid).2.deallocated = pid :: s.deallocated) ∧
  (ptLookup s.pageTable pid = none →
    BPM.deletePg s pid = (true, s.deallocatePage pid)) ∧
  (∀ fid, ptLookup s.pageTable pid = some fid → 0 < (s.pages fid).pinCount →
    BPM.deletePg s pid = (false, s.deallocatePage pid)) ∧
  (∀ fid, ptLookup s.pageTable pid = some fid → (s.pages fid).pinCount = 0 →
    (BPM.deletePg s pid).1 = true ∧
    ptLookup (BPM.deletePg s pid).2.pageTable pid = none ∧
    (BPM.deletePg s pid).2.pages fid =
      { pageId := INVALID_PAGE_ID, pinCount := 0, isDirty := false, data := 0 } ∧
    (BPM.deletePg s pid).2.freeList = s.freeList ++ [fid] ∧
    (BPM.deletePg s pid).2.replacer = replPin s.replacer fid ∧
    (BPM.deletePg s pid).2.disk = s.disk ∧
    (BPM.deletePg s pid).2.nextPageId = s.nextPageId)

/-- Postcondition of `FlushPgImp`: every buffer-pool field is left
unchanged (pages — hence pin counts, page ids and the dirty flag itself —
page table, free list, replacer, allocation counter); the return value
reports whether the page is buffered; the disk receives the frame's bytes
exactly when the page is buffered and dirty. -/
def flushPost (s : BPM) (pid : ℤ) : Prop :=
  (BPM.flushPg s pid).2.pages = s.pages ∧
  (BPM.flushPg s pid).2.pageTable = s.pageTable ∧
  (BPM.flushPg s pid).2.freeList = s.freeList ∧
  (BPM.flushPg s pid).2.replacer = s.replacer ∧
  (BPM.flushPg s pid).2.nextPageId = s.nextPageId ∧
  (BPM.flushPg s pid).2.deallocated = s.deallocated ∧
  ((BPM.flushPg s pid).1 = true ↔ (ptLookup s.pageTable pid).isSome = true) ∧
  (∀ fid, ptLookup s.pageTable pid = some fid →
    ((s.pages fid).isDirty = true →
      (BPM.flushPg s pid).2.disk = Function.update s.disk pid (s.pages fid).data) ∧
    ((s.pages fid).isDirty = false → (BPM.flushPg s pid).2.disk = s.disk) ∧
    ((BPM.flushPg s pid).2.pages fid).isDirty = (s.pages fid).isDirty) ∧
  (ptLookup s.pageTable pid = none → (BPM.flushPg s pid).2.disk = s.disk)

/-- Postcondition of the shrinking-phase checks, as amended: in SHRINKING,
`LockExclusive` and `LockUpgrade` abort the transaction with
LOCK_ON_SHRINKING and change nothing else; so does `LockShared` — except
under READ_UNCOMMITTED, whose isolation check fires first and aborts with
LOCKSHARED_ON_READ_UNCOMMITTED.  In every case no lock is granted and no
request is enqueued (the whole state change is the caller's state flag). -/
def shrinkingPost (s : LMState) (t rid : ℕ) : Prop :=
  (LMState.lockExclusive s t rid = (.thrown .lockOnShrinking, s.setTxnState t .aborted)) ∧
  (LMState.lockUpgrade s t rid = (.thrown .lockOnShrinking, s.setTxnState t .aborted)) ∧
  ((s.txns t).iso ≠ .readUncommitted →
    LMState.lockShared s t rid = (.thrown .lockOnShrinking, s.setTxnState t .aborted)) ∧
  ((s.txns t).iso = .readUncommitted →
    LMState.lockShared s t rid = (.thrown .locksharedOnReadUncommitted, s.setTxnState t .aborted))

/-! ### Concrete directory and bucket states for the remaining claims -/

/-- A depth-0 directory whose slot 0 carries bucket page 5 (slot 1 still
holds the initialization value `INVALID_PAGE_ID`). -/
def c6Dir : Directory :=
  { globalDepth := 0, localDepths := fun _ => 0,
    bucketPageIds := fun i => if i = 0 then 5 else INVALID_PAGE_ID }

/-- A depth-1 directory with distinctive slot contents. -/
def c6WDir : Directory :=
  { globalDepth := 1, localDepths := fun i => if i = 0 then 1 else 0,
    bucketPageIds := fun i => if i = 0 then 7 else 9 }

/-- Capacity-2 bucket trace: two inserts, then both pairs removed. -/
def c10B1 : Bucket ℕ ℕ := ((Bucket.empty : Bucket ℕ ℕ).insert 2 0 0).1

def c10B2 : Bucket ℕ ℕ := (c10B1.insert 2 1 1).1

def c10B3 : Bucket ℕ ℕ := (c10B2.remove 2 0 0).1

def c10B4 : Bucket ℕ ℕ := (c10B3.remove 2 1 1).1

end Bustub

set_option maxRecDepth 1000000

namespace Bustub

/-- C1.  The claim fails on the code: on a fresh table (bucket capacity 1,
constant hash — every key collides), `insert(0,10)` returns `true` and
`insert(1,20)` also returns `true`, but the second pair is lost.
`SplitInsert` drains the full bucket, appends the pending pair, re-routes
every pair to the same (old) side because all hashes agree on the new
local-depth bits, silently discards the failing bucket-level `Insert` of
the overflow pair, and still returns `true`.  A subsequent
`get_values(1)` returns `[]` although value 20 was inserted for key 1
with `insert` reporting success. -/
theorem extendible_insert_reports_true_but_value_lost :
    (c1T0.insert zeroHash 1 0 10).1 = true ∧
    (c1T1.insert zeroHash 1 1 20).1 = true ∧
    c1T2.getValues zeroHash 1 0 = [10] ∧
    c1T2.getValues zeroHash 1 1 = [] := by
  decide

/-- C5.  The claim fails on the code: with `(0,10)` present as a readable
entry of a full bucket (capacity 1), a second `insert(0,10)` does not
return `false` — the bucket-level insert rejects the duplicate, but the
table then sees the full bucket and invokes `SplitInsert`, which returns
`true` and mutates the directory (local depth of slot 0 goes from 0 to 1)
and the allocator (a new bucket page is created).  No second copy of the
pair is created, but the result and the state change contradict the
claim. -/
theorem extendible_duplicate_insert_splits_and_returns_true :
    (c1T0.insert zeroHash 1 0 10).1 = true ∧
    c1T1.getValues zeroHash 1 0 = [10] ∧
    (c1T1.insert zeroHash 1 0 10).1 = true ∧
    c1T1.dir.localDepths 0 = 0 ∧
    c5T2.dir.localDepths 0 = 1 ∧
    c1T1.nextPageId = 2 ∧
    c5T2.nextPageId = 3 ∧
    c5T2.getValues zeroHash 1 0 = [10] := by
  decide

/-- C8.  The claim fails on the code: txn 1 takes S on rid 0, txn 2 takes
S on rid 0, txn 1 starts an upgrade (enqueueing its X-request and
blocking behind txn 2, which it wounds), and is then itself wounded while
sleeping.  The resumed wait loop clears `upgrading_` and returns `false`
as the claim says — but it removes BOTH of txn 1's requests, the
un-granted X-request and the previously granted S-request: the queue
entries' `granted_` flag is never set (the grant writes a by-value local
copy, line 104/61 of lock_manager.cpp), so the abort path's
`remove_if(txn_id == self && !granted)` matches the S-request too.  The
queue is left holding only txn 2's request. -/
theorem upgrade_abort_removes_granted_shared_request :
    (lmS0.lockShared 1 0).1 = .ret true ∧
    (c8S1.lockShared 2 0).1 = .ret true ∧
    (c8S2.lockUpgrade 1 0).1 = .blocked ∧
    (c8S3.lockTable 0).requests =
      [{ txnId := 1, mode := .shared, granted := false },
       { txnId := 2, mode := .shared, granted := false },
       { txnId := 1, mode := .exclusive, granted := false }] ∧
    (0 ∈ (c8S3.txns 1).sharedSet) ∧
    (c8S3.lockTable 0).upgrading = some 1 ∧
    (c8S4.upgradeLoopStep 1 0).1 = .ret false ∧
    ((c8S4.upgradeLoopStep 1 0).2.lockTable 0).upgrading = none ∧
    ((c8S4.upgradeLoopStep 1 0).2.lockTable 0).requests =
      [{ txnId := 2, mode := .shared, granted := false }] := by
  decide

/-- C7 counterexample.  A SHRINKING transaction whose isolation level is
READ_UNCOMMITTED calls `lock_shared`: the isolation check precedes the
shrinking check, so the failure reason is LOCKSHARED_ON_READ_UNCOMMITTED,
not LOCK_ON_SHRINKING as the claim states for every lock attempt in
SHRINKING. -/
theorem shrinking_read_uncommitted_wrong_reason :
    (lmShrRU.txns 1).state = .shrinking ∧
    (lmShrRU.lockShared 1 0).1 = .thrown .locksharedOnReadUncommitted ∧
    LockOutcome.thrown .locksharedOnReadUncommitted ≠ .thrown .lockOnShrinking := by
  decide

/-- C6 counterexample.  At global depth 0 the claim predicts that slot
`0 | (1 << 0) = 1` receives slot 0's bucket page id (5); the code's
`global_depth_ == 0` special case only increments the depth, leaving slot
1 at its initialization value `INVALID_PAGE_ID`. -/
theorem incr_global_depth_zero_copies_nothing :
    c6Dir.globalDepth = 0 ∧
    c6Dir.bucketPageIds 0 = 5 ∧
    (c6Dir.incrGlobalDepth).globalDepth = 1 ∧
    (c6Dir.incrGlobalDepth).bucketPageIds (0 ||| 2 ^ 0) = INVALID_PAGE_ID ∧
    (c6Dir.incrGlobalDepth).bucketPageIds (0 ||| 2 ^ 0) ≠ c6Dir.bucketPageIds 0 := by
  decide

/-- C4 counterexample.  Page 5 is buffered with pin count 1: `delete_page`
returns `false`, yet the disk id has been deallocated — the code calls
`DeallocatePage` unconditionally before any check, so the non-success
outcome does not leave the disk-id allocation unchanged. -/
theorem delete_page_deallocates_on_failure :
    (BPM.deletePg bpmBusy 5).1 = false ∧
    bpmBusy.deallocated = [] ∧
    (BPM.deletePg bpmBusy 5).2.deallocated = [5] := by
  decide

/-- A copy target `idx | 2^g` of `IncrGlobalDepth`'s loop never hits an
index below `2^g`: its bit `g` is set. -/
theorem lor_two_pow_ne_of_lt {g j : ℕ} (hj : j < 2 ^ g) (idx : ℕ) : idx ||| 2 ^ g ≠ j := by
  intro h
  have h1 : (idx ||| 2 ^ g).testBit g = true := by
    simp [Nat.testBit_or, Nat.testBit_two_pow_self]
  rw [h, Nat.testBit_lt_two_pow hj] at h1
  exact Bool.false_ne_true h1

/-- Distinct loop iterations of `IncrGlobalDepth` write distinct slots. -/
theorem lor_two_pow_inj {g i j : ℕ} (hi : i < 2 ^ g) (hj : j < 2 ^ g)
    (h : i ||| 2 ^ g = j ||| 2 ^ g) : i = j := by
  apply Nat.eq_of_testBit_eq
  intro b
  by_cases hbg : b = g
  · subst hbg
    rw [Nat.testBit_lt_two_pow hi, Nat.testBit_lt_two_pow hj]
  · have h2 := congrArg (fun x => Nat.testBit x b) h
    simp only [Nat.testBit_or] at h2
    rw [Nat.testBit_two_pow_of_ne (fun hh => hbg hh.symm)] at h2
    simpa using h2

/-- The copy loop of `IncrGlobalDepth` never changes the lower half of the
directory (all its writes carry bit `g`). -/
theorem incrCopy_foldl_low {g : ℕ} (l : List ℕ) (d : Directory) {j : ℕ} (hj : j < 2 ^ g) :
    (l.foldl (incrCopyStep g) d).bucketPageIds j = d.bucketPageIds j ∧
    (l.foldl (incrCopyStep g) d).localDepths j = d.localDepths j := by
  induction l generalizing d with
  | nil => exact ⟨rfl, rfl⟩
  | cons idx rest ih =>
    simp only [List.foldl_cons]
    rcases ih (incrCopyStep g d idx) with ⟨h1, h2⟩
    rw [h1, h2]
    constructor
    · exact Function.update_noteq (Ne.symm (lor_two_pow_ne_of_lt hj idx)) _ _
    · exact Function.update_noteq (Ne.symm (lor_two_pow_ne_of_lt hj idx)) _ _

/-- After the copy loop over `range m` (`m ≤ 2^g`), slot `j | 2^g` holds
slot `j`'s original bucket page id and local depth, for every `j < m`. -/
theorem incrCopy_range_target {g : ℕ} :
    ∀ m : ℕ, m ≤ 2 ^ g → ∀ (d : Directory) (j : ℕ), j < m →
      ((List.range m).foldl (incrCopyStep g) d).bucketPageIds (j ||| 2 ^ g) = d.bucketPageIds j ∧
      ((List.range m).foldl (incrCopyStep g) d).localDepths (j ||| 2 ^ g) = d.localDepths j := by
  intro m
  induction m with
  | zero => intro _ d j hj; exact absurd hj (Nat.not_lt_zero j)
  | succ m ih =>
    intro hm d j hj
    have hm' : m ≤ 2 ^ g := Nat.le_of_succ_le hm
    have hmlt : m < 2 ^ g := Nat.lt_of_lt_of_le (Nat.lt_succ_self m) hm
    rw [List.range_succ, List.foldl_append, List.foldl_cons, List.foldl_nil]
    rcases Nat.lt_succ_iff_lt_or_eq.mp hj with hlt | heq
    · have hjlt : j < 2 ^ g := Nat.lt_trans hlt hmlt
      have hne : ¬ j ||| 2 ^ g = m ||| 2 ^ g := fun h =>
        Nat.ne_of_lt hlt (lor_two_pow_inj hjlt hmlt h)
      rcases ih hm' d j hlt with ⟨h1, h2⟩
      constructor
      · rw [show (incrCopyStep g ((List.range m).foldl (incrCopyStep g) d) m).bucketPageIds
              (j ||| 2 ^ g) =
            ((List.range m).foldl (incrCopyStep g) d).bucketPageIds (j ||| 2 ^ g) from
          Function.update_noteq hne _ _]
        exact h1
      · rw [show (incrCopyStep g ((List.range m).foldl (incrCopyStep g) d) m).localDepths
              (j ||| 2 ^ g) =
            ((List.range m).foldl (incrCopyStep g) d).localDepths (j ||| 2 ^ g) from
          Function.update_noteq hne _ _]
        exact h2
    · subst heq
      rcases incrCopy_foldl_low (List.range j) d hmlt with ⟨h1, h2⟩
      constructor
      · simp only [incrCopyStep, Function.update_same]
        exact h1
      · simp only [incrCopyStep, Function.update_same]
        exact h2

/-- C6, amended.  For every directory below the maximum depth (9, since
`MAX_DIR_SIZE = 512`): `incr_global_depth()` always increments the global
depth; for `0 < g` it first copies each slot `i < 2^g` — bucket page id
and local depth — into slot `i | (1 << g)`; but at `g = 0` the special
case only increments the depth and copies nothing (the table constructor
compensates by writing slots 0 and 1 itself). -/
theorem incr_global_depth_copies_upper_half :
    ∀ dir : Directory, dir.globalDepth < 9 →
      (dir.incrGlobalDepth).globalDepth = dir.globalDepth + 1 ∧
      (dir.globalDepth = 0 → dir.incrGlobalDepth = { dir with globalDepth := 1 }) ∧
      (0 < dir.globalDepth → ∀ i, i < 2 ^ dir.globalDepth →
        (dir.incrGlobalDepth).bucketPageIds (i ||| 2 ^ dir.globalDepth) = dir.bucketPageIds i ∧
        (dir.incrGlobalDepth).localDepths (i ||| 2 ^ dir.globalDepth) = dir.localDepths i) := by
  intro dir _
  by_cases h0 : dir.globalDepth = 0
  · refine ⟨?_, fun _ => ?_, fun hpos => absurd h0 (Nat.pos_iff_ne_zero.mp hpos)⟩
    · simp [Directory.incrGlobalDepth, h0]
    · simp [Directory.incrGlobalDepth, h0]
  · unfold Directory.incrGlobalDepth
    rw [if_neg h0]
    exact ⟨rfl, fun h => absurd h h0,
      fun _ i hi => incrCopy_range_target (2 ^ dir.globalDepth) le_rfl dir i hi⟩

/-- Witness for C6 at a depth-1 directory. -/
theorem incr_global_depth_copies_upper_half_witness :
    c6WDir.globalDepth < 9 ∧
    (c6WDir.incrGlobalDepth).globalDepth = 2 ∧
    (c6WDir.incrGlobalDepth).bucketPageIds (0 ||| 2) = 7 ∧
    (c6WDir.incrGlobalDepth).localDepths (1 ||| 2) = 0 := by
  have h := incr_global_depth_copies_upper_half c6WDir (by decide)
  refine ⟨by decide, h.1.trans (by decide), ?_, ?_⟩
  · exact ((h.2.2 (by decide) 0 (by decide)).1).trans (by decide)
  · exact ((h.2.2 (by decide) 1 (by decide)).2).trans (by decide)

/-- The bucket-level insert loop never touches a slot whose occupied bit
is set: at such a slot the pair, the occupied bit and the readable bit are
all preserved. -/
theorem insertGo_preserves_occupied {K V : Type} [DecidableEq K] [DecidableEq V]
    (k : K) (v : V) {i : ℕ} :
    ∀ (fuel start : ℕ) (b : Bucket K V), b.occupied i = true →
      (b.insertGo k v start fuel).1.arr i = b.arr i ∧
      (b.insertGo k v start fuel).1.occupied i = b.occupied i ∧
      (b.insertGo k v start fuel).1.readable i = b.readable i := by
  intro fuel
  induction fuel with
  | zero =>
    intro start b _
    exact ⟨rfl, rfl, rfl⟩
  | succ fuel ih =>
    intro start b hb
    simp only [Bucket.insertGo]
    split
    · exact ⟨rfl, rfl, rfl⟩
    · split
      · rename_i hocc
        have hne : i ≠ start := by
          intro h
          rw [h] at hb
          simp [hb] at hocc
        exact ⟨Function.update_noteq hne _ _, Function.update_noteq hne _ _,
          Function.update_noteq hne _ _⟩
      · exact ih (start + 1) b hb

/-- The bucket-level remove loop only ever clears a readable bit: slots'
pairs and occupied bits are untouched, and a slot readable afterwards was
readable before. -/
theorem removeGo_only_clears_readable {K V : Type} [DecidableEq K] [DecidableEq V]
    (k : K) (v : V) {i : ℕ} :
    ∀ (fuel start : ℕ) (b : Bucket K V),
      (b.removeGo k v start fuel).1.occupied i = b.occupied i ∧
      (b.removeGo k v start fuel).1.arr i = b.arr i ∧
      ((b.removeGo k v start fuel).1.readable i = true → b.readable i = true) := by
  intro fuel
  induction fuel with
  | zero =>
    intro start b
    exact ⟨rfl, rfl, fun h => h⟩
  | succ fuel ih =>
    intro start b
    simp only [Bucket.removeGo]
    split
    · refine ⟨rfl, rfl, fun h => ?_⟩
      dsimp only at h
      by_cases hi : i = start
      · rw [hi] at h
        rw [Function.update_same] at h
        exact absurd h (by simp)
      · rwa [Function.update_noteq hi] at h
    · exact ih (start + 1) b

/-- C10.  The bucket page's `Insert` writes only to slots whose occupied
bit is unset (occupied slots keep pair and both bits); `Remove` clears
only a readable bit (occupied bits and pairs untouched); and concretely,
on a capacity-2 bucket, inserting two pairs and removing both leaves
`IsFull() = true` with `NumReadable() = 0`, and a further insert returns
`false` although no readable entry exists — tombstoned slots never
restore insert capacity. -/
theorem bucket_tombstones_exhaust_capacity :
    (∀ (K V : Type) [DecidableEq K] [DecidableEq V] (n : ℕ)
        (b : Bucket K V) (k : K) (v : V) (i : ℕ), b.occupied i = true →
        (b.insert n k v).1.arr i = b.arr i ∧
        (b.insert n k v).1.occupied i = b.occupied i ∧
        (b.insert n k v).1.readable i = b.readable i) ∧
    (∀ (K V : Type) [DecidableEq K] [DecidableEq V] (n : ℕ)
        (b : Bucket K V) (k : K) (v : V) (i : ℕ),
        (b.remove n k v).1.occupied i = b.occupied i ∧
        (b.remove n k v).1.arr i = b.arr i ∧
        ((b.remove n k v).1.readable i = true → b.readable i = true)) ∧
    ((Bucket.empty : Bucket ℕ ℕ).insert 2 0 0).2 = true ∧
    (c10B1.insert 2 1 1).2 = true ∧
    (c10B2.remove 2 0 0).2 = true ∧
    (c10B3.remove 2 1 1).2 = true ∧
    c10B4.isFull 2 = true ∧
    c10B4.numReadable 2 = 0 ∧
    (c10B4.insert 2 2 2).2 = false := by
  refine ⟨?_, ?_, by decide, by decide, by decide, by decide, by decide, by decide, by decide⟩
  · intro K V _ _ n b k v i hb
    exact insertGo_preserves_occupied k v n 0 b hb
  · intro K V _ _ n b k v i
    exact removeGo_only_clears_readable k v n 0 b

/-- Witness for C10 at the concrete capacity-2 bucket: slot 0 of `c10B1`
is occupied, and both preservation clauses hold there. -/
theorem bucket_tombstones_exhaust_capacity_witness :
    c10B1.occupied 0 = true ∧
    (c10B1.insert 2 5 5).1.arr 0 = c10B1.arr 0 ∧
    (c10B1.remove 2 5 5).1.occupied 0 = c10B1.occupied 0 := by
  have h := bucket_tombstones_exhaust_capacity
  exact ⟨by decide, (h.1 ℕ ℕ 2 c10B1 5 5 0 (by decide)).1,
    (h.2.1 ℕ ℕ 2 c10B1 5 5 0).1⟩

/-- C9.  `flush_page` never mutates the pool: pages (hence pin counts,
page ids and the dirty flag itself), page table, free list, replacer and
allocation counter are all unchanged; it returns whether the page is
buffered; and it writes the frame's bytes to disk exactly when the page
is buffered and dirty — so a flushed page stays dirty and its bytes are
written once more when the frame is later evicted or reused. -/
theorem flush_page_leaves_pool_unchanged : ∀ (s : BPM) (pid : ℤ), flushPost s pid := by
  intro s pid
  unfold flushPost BPM.flushPg
  cases hl : ptLookup s.pageTable pid with
  | none => simp [hl]
  | some fid =>
    by_cases hd : (s.pages fid).isDirty
    · simp [hl, hd]
    · simp [hl, hd]

/-- Witness for C9 at the dirty pinned single-frame pool. -/
theorem flush_page_leaves_pool_unchanged_witness :
    (BPM.flushPg bpmBusy 5).1 = true ∧
    (BPM.flushPg bpmBusy 5).2.disk = Function.update bpmBusy.disk 5 42 ∧
    ((BPM.flushPg bpmBusy 5).2.pages 0).isDirty = true := by
  have h := flush_page_leaves_pool_unchanged bpmBusy 5
  refine ⟨h.2.2.2.2.2.2.1.mpr (by decide), ?_, ?_⟩
  · exact (h.2.2.2.2.2.2.2.1 0 (by decide)).1 (by decide)
  · rw [h.1]
    decide

/-- C3.  `unpin_page` returns `false` and changes nothing when the page
is not buffered or its pin count is already zero; otherwise it returns
`true`, decrements the pin count, OR-accumulates the dirty argument into
the frame's dirty flag (unpinning with `false` never clears the flag),
leaves every other pool field untouched, and hands the frame to the
replacer exactly when the pin count reached zero. -/
theorem unpin_page_decrements_and_or_accumulates :
    ∀ (s : BPM) (pid : ℤ) (d : Bool), unpinPost s pid d := by
  intro s pid d
  unfold unpinPost BPM.unpinPg
  cases hl : ptLookup s.pageTable pid with
  | none => simp
  | some fid =>
    by_cases h0 : (s.pages fid).pinCount = 0
    · simp [h0]
    · by_cases h1 : (s.pages fid).pinCount - 1 = 0
      · simp [h0, h1, Function.update_apply]
        intro _ j hj hj2
        exact absurd hj2 hj
      · simp [h0, h1, Function.update_apply]
        intro _ j hj hj2
        exact absurd hj2 hj

/-- Witness for C3: unpinning the once-pinned dirty page 5 with `false`
succeeds, drops the pin count to zero, keeps the dirty bit, and the frame
becomes the replacer's MRU. -/
theorem unpin_page_decrements_and_or_accumulates_witness :
    (BPM.unpinPg bpmBusy 5 false).1 = true ∧
    (BPM.unpinPg bpmBusy 5 false).2.pages 0 =
      { pageId := 5, pinCount := 0, isDirty := true, data := 42 } ∧
    (BPM.unpinPg bpmBusy 5 false).2.replacer = [0] := by
  have h := (unpin_page_decrements_and_or_accumulates bpmBusy 5 false).2.2 0 (by decide) (by decide)
  refine ⟨h.1, h.2.1.trans (by decide), ?_⟩
  rw [h.2.2.2.2.2.2.2.2.1 (by decide)]
  decide

/-- C4, amended.  `delete_page` deallocates the disk id unconditionally
at entry, so the disk-id allocation changes even on the two non-success
outcomes; apart from that deallocation the non-success outcomes leave the
pool unchanged — `true` when the page is not buffered, `false` when it is
pinned — and otherwise the page is removed from the page table, the
frame's metadata reset, the frame appended to the free list and removed
from the replacer. -/
theorem delete_page_unconditionally_deallocates :
    ∀ (s : BPM) (pid : ℤ), delPost s pid := by
  intro s pid
  unfold delPost BPM.deletePg BPM.deallocatePage
  cases hl : ptLookup s.pageTable pid with
  | none => simp [hl]
  | some fid =>
    by_cases hp : 0 < (s.pages fid).pinCount
    · simp [hl, hp]
      intro h2
      omega
    · simp [hl, hp]
      refine ⟨by omega, fun _ => ?_⟩
      simp only [ptLookup, ptErase, Option.map_eq_none', List.find?_eq_none]
      intro e he
      have h3 := (List.mem_filter.mp he).2
      simpa using h3

/-- Witness for C4 at the fresh pool extended with an unpinned buffered
page: deleting buffered, unpinned page 7 succeeds and resets frame 0. -/
theorem delete_page_unconditionally_deallocates_witness :
    (BPM.deletePg bpmIdle 7).2.deallocated = [7] ∧
    (BPM.deletePg bpmIdle 7).1 = true ∧
    ptLookup (BPM.deletePg bpmIdle 7).2.pageTable 7 = none ∧
    (BPM.deletePg bpmIdle 7).2.freeList = [0] ∧
    (BPM.deletePg bpmIdle 7).2.replacer = [] := by
  have h := delete_page_unconditionally_deallocates bpmIdle 7
  have hs := h.2.2.2 0 (by decide) (by decide)
  exact ⟨h.1.trans (by decide), hs.1, hs.2.1, hs.2.2.2.1.trans (by decide),
    hs.2.2.2.2.1.trans (by decide)⟩

/-- A freshly inserted page-table entry is found by lookup. -/
theorem ptLookup_ptInsert_self (pt : List (ℤ × ℕ)) (pid : ℤ) (fid : ℕ) :
    ptLookup (ptInsert pt pid fid) pid = some fid := by
  simp [ptLookup, ptInsert]

/-- Postconditions of `NewPgImp`'s victim-reuse tail (steps 2-3), for any
base state whose disk holds zeroes at the new id and whose victim frame
holds a different page id: the new id maps to the victim frame, the frame
is re-initialized with pin count 1, clean, zeroed bytes, a dirty victim
was written back, and the allocation counter is untouched. -/
theorem newPgFinish_post (s0 : BPM) (fid : ℕ) (pid : ℤ)
    (hdisk0 : s0.disk pid = 0) (hOldId : ¬ (s0.pages fid).pageId = pid) :
    ptLookup (BPM.newPgFinish s0 fid pid).pageTable pid = some fid ∧
    (BPM.newPgFinish s0 fid pid).pages fid =
      { pageId := pid, pinCount := 1, isDirty := false, data := 0 } ∧
    ((s0.pages fid).isDirty = true →
      (BPM.newPgFinish s0 fid pid).disk (s0.pages fid).pageId = (s0.pages fid).data) ∧
    (BPM.newPgFinish s0 fid pid).nextPageId = s0.nextPageId := by
  have hne : pid ≠ (s0.pages fid).pageId := fun h => hOldId h.symm
  unfold BPM.newPgFinish
  by_cases hd : (s0.pages fid).isDirty
  · refine ⟨ptLookup_ptInsert_self _ _ _, ?_, fun _ => ?_, by simp [hd]⟩
    · simp only [hd, if_true]
      rw [Function.update_same]
      rw [Function.update_noteq hne, hdisk0]
    · simp only [hd, if_true]
      rw [Function.update_same]
  · refine ⟨ptLookup_ptInsert_self _ _ _, ?_, fun hcon => absurd hcon (by simp [hd]), by simp [hd]⟩
    simp [hd, hdisk0, Function.update_same]

/-- C2.  `new_page` returns none exactly when every frame is pinned, and
then the whole state — in particular `next_page_id_` — is unchanged, so
the id it would have allocated is handed out by the next successful call;
on success the returned id is the pre-state's `next_page_id_`, the counter
advanced by `num_instances_`, a dirty victim was written back to disk
before reuse, and the victim frame now holds the new id with pin count 1,
clean and zeroed bytes, registered in the page table. -/
theorem new_page_none_iff_all_pinned : ∀ s : BPM, bpmInv s → newPgPost s := by
  intro s hinv
  obtain ⟨hAvail, hFree, hRepl, hIds, hDisk⟩ := hinv
  by_cases hall : ((List.range s.poolSize).all fun i => (s.pages i).pinCount ≠ 0) = true
  · have hred : BPM.newPg s = .ok (none, s) := by
      unfold BPM.newPg
      rw [if_pos hall]
    constructor
    · rw [hred]
      constructor
      · intro _ i hi
        exact of_decide_eq_true (List.all_eq_true.mp hall i (List.mem_range.mpr hi))
      · intro _
        rfl
    · intro pid s2 heq
      rw [hred] at heq
      simp at heq
  · have hex : ∃ i, i < s.poolSize ∧ (s.pages i).pinCount = 0 := by
      by_contra hc
      push_neg at hc
      exact hall (List.all_eq_true.mpr fun x hx =>
        decide_eq_true (hc x (List.mem_range.mp hx)))
    have hdisk0 : s.disk s.nextPageId = 0 := hDisk s.nextPageId le_rfl
    rcases hfl : s.freeList with _ | ⟨f, rest⟩
    · have hrne : s.replacer ≠ [] := by
        obtain ⟨i, hi, h0⟩ := hex
        rcases hAvail i hi h0 with hin | hin
        · rw [hfl] at hin
          exact absurd hin (List.not_mem_nil i)
        · intro h
          rw [h] at hin
          exact absurd hin (List.not_mem_nil i)
      rcases hgl : s.replacer.getLast? with _ | f
      · rw [List.getLast?_eq_none_iff] at hgl
        exact absurd hgl hrne
      · have hflt : f < s.poolSize := hRepl f (List.mem_of_getLast?_eq_some hgl)
        have hred : BPM.newPg s = .ok (some s.nextPageId,
            BPM.newPgFinish
              { s with nextPageId := s.nextPageId + s.numInstances,
                       replacer := s.replacer.dropLast } f s.nextPageId) := by
          unfold BPM.newPg BPM.allocatePage replVictim
          rw [if_neg hall]
          simp only [hfl, hgl]
        refine ⟨⟨fun h => absurd (hred.symm.trans h) (by simp), ?_⟩, ?_⟩
        · intro hforall
          obtain ⟨i, hi, h0⟩ := hex
          exact absurd h0 (hforall i hi)
        · intro pid s2 heq
          rw [hred] at heq
          have hpair := Except.ok.inj heq
          have hpid : s.nextPageId = pid := by
            have := congrArg Prod.fst hpair
            simpa using this
          have hs2 : s2 = BPM.newPgFinish
              { s with nextPageId := s.nextPageId + s.numInstances,
                       replacer := s.replacer.dropLast } f s.nextPageId := by
            have := congrArg Prod.snd hpair
            simpa using this.symm
          subst hpid
          have hpost := newPgFinish_post
            { s with nextPageId := s.nextPageId + s.numInstances,
                     replacer := s.replacer.dropLast }
            f s.nextPageId hdisk0 (Int.ne_of_lt (hIds f hflt))
          refine ⟨rfl, ?_, f, hflt, ?_⟩
          · rw [hs2]
            exact hpost.2.2.2
          · rw [hs2]
            exact ⟨hpost.1, hpost.2.1, hpost.2.2.1⟩
    · have hflt : f < s.poolSize := hFree f (by rw [hfl]; exact List.mem_cons_self f rest)
      have hred : BPM.newPg s = .ok (some s.nextPageId,
          BPM.newPgFinish
            { s with nextPageId := s.nextPageId + s.numInstances,
                     freeList := rest } f s.nextPageId) := by
        unfold BPM.newPg BPM.allocatePage
        rw [if_neg hall]
        simp only [hfl]
      refine ⟨⟨fun h => absurd (hred.symm.trans h) (by simp), ?_⟩, ?_⟩
      · intro hforall
        obtain ⟨i, hi, h0⟩ := hex
        exact absurd h0 (hforall i hi)
      · intro pid s2 heq
        rw [hred] at heq
        have hpair := Except.ok.inj heq
        have hpid : s.nextPageId = pid := by
          have := congrArg Prod.fst hpair
          simpa using this
        have hs2 : s2 = BPM.newPgFinish
            { s with nextPageId := s.nextPageId + s.numInstances,
                     freeList := rest } f s.nextPageId := by
          have := congrArg Prod.snd hpair
          simpa using this.symm
        subst hpid
        have hpost := newPgFinish_post
          { s with nextPageId := s.nextPageId + s.numInstances, freeList := rest }
          f s.nextPageId hdisk0 (Int.ne_of_lt (hIds f hflt))
        refine ⟨rfl, ?_, f, hflt, ?_⟩
        · rw [hs2]
          exact hpost.2.2.2
        · rw [hs2]
          exact ⟨hpost.1, hpost.2.1, hpost.2.2.1⟩

/-- Witness for C2 at the fresh one-frame pool: no frame is pinned, so
`new_page` succeeds with id 0, and the none-iff reduces to the falsity of
"all pinned". -/
theorem new_page_none_iff_all_pinned_witness :
    bpmInv bpmFresh ∧
    ¬ (BPM.newPg bpmFresh = .ok (none, bpmFresh)) ∧
    ∀ pid s2, BPM.newPg bpmFresh = .ok (some pid, s2) → pid = 0 := by
  have hinv : bpmInv bpmFresh :=
    ⟨by decide, by decide, by decide, by decide, fun q _ => rfl⟩
  have h := new_page_none_iff_all_pinned bpmFresh hinv
  refine ⟨hinv, fun habs => ?_, fun pid s2 heq => ((h.2 pid s2 heq).1).trans (by decide)⟩
  have := h.1.mp habs 0 (by decide)
  exact this (by decide)

/-- C7, amended.  Every lock attempt by a SHRINKING transaction sets the
transaction ABORTED and fails without granting a lock or touching the
queue: `lock_exclusive` and `lock_upgrade` fail with LOCK_ON_SHRINKING,
and so does `lock_shared` — except when the transaction runs at
READ_UNCOMMITTED, whose isolation check fires first and aborts with
LOCKSHARED_ON_READ_UNCOMMITTED instead.  Moreover an unlock of an
exclusive (or, under REPEATABLE_READ, any) held lock moves a GROWING
transaction to SHRINKING, after which those failures apply to every
further lock attempt. -/
theorem shrinking_lock_attempts_abort :
    (∀ (s : LMState) (t rid : ℕ), (s.txns t).state = .shrinking → shrinkingPost s t rid) ∧
    (∀ (s : LMState) (t rid : ℕ) (r : LockRequest),
      (s.txns t).state = .growing →
      (s.lockTable rid).requests.find? (fun x => x.txnId = t) = some r →
      (r.mode = .exclusive ∨ (s.txns t).iso = .repeatableRead) →
      ((LMState.unlock s t rid).2.txns t).state = .shrinking) := by
  constructor
  · intro s t rid hsh
    refine ⟨by simp [LMState.lockExclusive, hsh], by simp [LMState.lockUpgrade, hsh],
      fun hiso => by simp [LMState.lockShared, hsh, hiso],
      fun hiso => by simp [LMState.lockShared, hiso]⟩
  · intro s t rid r hg hfind hmode
    unfold LMState.unlock
    simp only [hfind, Function.update_same]
    rw [if_pos ⟨Or.symm hmode, hg⟩]

/-- Witness for C7: a SHRINKING REPEATABLE_READ transaction sees all
three failures with LOCK_ON_SHRINKING, and txn 1 of `c8S1` (GROWING,
holding S on rid 0 under REPEATABLE_READ) transitions to SHRINKING on
unlock. -/
theorem shrinking_lock_attempts_abort_witness :
    (lmShrRR.txns 1).state = .shrinking ∧
    LMState.lockExclusive lmShrRR 1 0 =
      (.thrown .lockOnShrinking, lmShrRR.setTxnState 1 .aborted) ∧
    LMState.lockShared lmShrRR 1 0 =
      (.thrown .lockOnShrinking, lmShrRR.setTxnState 1 .aborted) ∧
    ((LMState.unlock c8S1 1 0).2.txns 1).state = .shrinking := by
  have h := shrinking_lock_attempts_abort
  have hpost := h.1 lmShrRR 1 0 (by decide)
  refine ⟨by decide, hpost.1, hpost.2.2.1 (by decide), ?_⟩
  exact h.2 c8S1 1 0 { txnId := 1, mode := .shared, granted := false }
    (by decide) (by decide) (Or.inr (by decide))

end Bustub
